import Mathlib

/-!
A shallow embedding of the windowed file I/O layer in `src/file.cpp`
(classes `FileBase`, `InputFile`, `InputStream`, `OutputFile`,
`OutputStream`).  Machine integers (`upx_off_t`, `upx_int64_t`) are
modelled as `Int`; the values that occur stay far below 2^63, so no
wraparound arithmetic is needed.  Fallible operations return
`Except Err`; C++ exceptions become `Err` values and the `assert`
macro becomes the `Err.assertFail` outcome.  State (handle fields,
the underlying descriptor or stream) is passed explicitly.
-/

/-- The exception taxonomy of the source: `throwIOException` (message and
optional errno), `throwInternalError`, `throwEOFException`
(`UnexpectedEndOfFileError`), `FileNotFoundException`,
`FileAlreadyExistsException`, out-of-memory from `mem_size`, and a failed
`assert`. -/
inductive Err where
  | ioError : String → Option Int → Err
  | internalError : Err
  | eofError : Err
  | notFound : Err
  | alreadyExists : Err
  | outOfMemory : Err
  | assertFail : Err
  deriving DecidableEq, Repr

/-- errno value ENOENT (no such file or directory). -/
def ENOENT : Int := 2

/-- errno value EACCES (permission denied). -/
def EACCES : Int := 13

/-- errno value EEXIST (file exists). -/
def EEXIST : Int := 17

/-- errno value EINVAL (invalid argument). -/
def EINVAL : Int := 22

/-- Modelled from the spec: the limit of `mem_size_valid_bytes` lives in
`conf.h`/the memory utilities, which are outside `src/`; the spec says the
check "rejects magnitudes exceeding an address-space-representable byte
count" (the actual UPX limit, 768 MiB). -/
def UPX_RSIZE_MAX : Int := 0x30000000

/-- Modelled from the spec: `mem_size_valid_bytes(bytes)` — the sanity
check used by seek arithmetic; true iff the byte count is representable. -/
def mem_size_valid_bytes (bytes : Int) : Bool :=
  decide (0 ≤ bytes) && decide (bytes ≤ UPX_RSIZE_MAX)

/-- The magnitude `off >= 0 ? off : -off` fed to the seek sanity check. -/
def seekMag (off : Int) : Int := if off ≥ 0 then off else -off

/-- Modelled from the spec: `mem_size(element_size, n)` — computes
`element_size * n` after the sanity check, throwing on invalid sizes
(a negative `n` converts to a huge unsigned value and is rejected). -/
def mem_size (elemSize n : Int) : Except Err Int :=
  if 0 ≤ n ∧ mem_size_valid_bytes (elemSize * n) then .ok (elemSize * n)
  else .error .outOfMemory

/-- whence value SEEK_SET. -/
def SEEK_SET : Int := 0

/-- whence value SEEK_CUR. -/
def SEEK_CUR : Int := 1

/-- whence value SEEK_END. -/
def SEEK_END : Int := 2

/-! ## The OS descriptor model

An open descriptor is a byte store with a cursor.  `capacity` models the
device limit: `::write` transfers bytes only up to it, so writes past it
come back short (how a short write arises in reality, e.g. a full disk). -/

structure OsFile where
  contents : List Nat
  pos : Int
  capacity : Int
  deriving DecidableEq, Repr

/-- The absolute position a `::lseek` call aims at. -/
def lseekTarget (f : OsFile) (off whence : Int) : Int :=
  if whence = SEEK_SET then off
  else if whence = SEEK_CUR then f.pos + off
  else (f.contents.length : Int) + off

/-- `::lseek(fd, off, whence)`: repositions the cursor; fails (returns -1,
here `none`) when the resulting offset would be negative.  Seeking beyond
end-of-file is allowed. -/
def lseek (f : OsFile) (off whence : Int) : Option (Int × OsFile) :=
  if lseekTarget f off whence < 0 then none
  else some (lseekTarget f off whence, { f with pos := lseekTarget f off whence })

/-- `acc_safe_hread(fd, buf, len)`: reads up to `len` bytes from the
cursor, stopping at end-of-file; returns the count transferred. -/
def hread (f : OsFile) (len : Int) : Int × OsFile :=
  let n := min len (max 0 ((f.contents.length : Int) - f.pos))
  (n, { f with pos := f.pos + n })

/-- Overwrite `contents` at byte position `pos` with `data`, zero-filling
any gap between the old end and `pos` (sparse-write semantics of the OS). -/
def writeAt (contents : List Nat) (pos : Nat) (data : List Nat) : List Nat :=
  (contents.take pos ++ List.replicate (pos - contents.length) 0)
    ++ data ++ contents.drop (pos + data.length)

/-- `acc_safe_hwrite(fd, buf, len)`: writes up to `len` bytes at the
cursor; transfers only what fits below the device capacity, so the
returned count can be short. -/
def hwrite (f : OsFile) (data : List Nat) (len : Int) : Int × OsFile :=
  let n := min len (max 0 (f.capacity - f.pos))
  (n, { f with contents := writeAt f.contents f.pos.toNat (data.take n.toNat),
               pos := f.pos + n })

/-! ## FileBase -/

/-- The handle fields of `FileBase` relevant to seek/tell/window logic:
`isOpen` models `_fd >= 0`, `offset` is `_offset`, `length` is `_length`. -/
structure FileBaseState where
  isOpen : Bool
  offset : Int
  length : Int
  deriving DecidableEq, Repr

/-- The success path shared by `FileBase::seek`'s branches: perform
`::lseek` and return the window-relative result `l - _offset`. -/
def doLseek (h : FileBaseState) (f : OsFile) (off whence : Int) :
    Except Err (Int × OsFile) :=
  match lseek f off whence with
  | none => .error (.ioError "seek error" none)
  | some (l, f') => .ok (l - h.offset, f')

/-- `FileBase::seek(off, whence)` (file.cpp lines 133-154). -/
def FileBase.seek (h : FileBaseState) (f : OsFile) (off whence : Int) :
    Except Err (Int × OsFile) :=
  if ¬ h.isOpen then .error (.ioError "bad seek 1" none)
  else if ¬ mem_size_valid_bytes (seekMag off) then
    .error (.ioError "bad seek" none)
  else if whence = SEEK_SET then
    if off < 0 then .error (.ioError "bad seek 2" none)
    else doLseek h f (off + h.offset) SEEK_SET
  else if whence = SEEK_END then
    if off > 0 then .error (.ioError "bad seek 3" none)
    else doLseek h f (off + h.offset + h.length) SEEK_SET
  else if whence = SEEK_CUR then
    doLseek h f off SEEK_CUR
  else .error .internalError

/-- `FileBase::tell()` (file.cpp lines 156-163). -/
def FileBase.tell (h : FileBaseState) (f : OsFile) : Except Err Int :=
  if ¬ h.isOpen then .error (.ioError "bad tell" none)
  else
    match lseek f 0 SEEK_CUR with
    | none => .error (.ioError "tell error" none)
    | some (l, _) => .ok (l - h.offset)

/-- `FileBase::set_extent(offset, length)` (file.cpp lines 165-168). -/
def FileBase.set_extent (h : FileBaseState) (offset length : Int) : FileBaseState :=
  { h with offset := offset, length := length }

/-- `FileBase::st_size()` (file.cpp line 170). -/
def FileBase.st_size (h : FileBaseState) : Int := h.length

/-! ## The file-system model for `open`

`do_sopen` calls the OS `::open`/`::sopen` primitive and `::fstat`.  The
file system is an association list; `accessible = false` models an entry
the caller may not open (the OS answers EACCES), giving a failure that is
neither ENOENT nor EEXIST. -/

structure FsEntry where
  name : String
  data : List Nat
  accessible : Bool
  deriving DecidableEq, Repr

inductive AccMode where
  | rdonly | wronly | rdwr
  deriving DecidableEq, Repr

structure OpenFlags where
  acc : AccMode
  creat : Bool
  excl : Bool
  trunc : Bool
  deriving DecidableEq, Repr

def lookupFs (fs : List FsEntry) (name : String) : Option FsEntry :=
  fs.find? (fun e => e.name = name)

/-- The OS `::open` primitive: returns the opened file's contents, or an
errno value on failure. -/
def osOpen (fs : List FsEntry) (name : String) (fl : OpenFlags) :
    Except Int (List Nat) :=
  match lookupFs fs name with
  | none => if fl.creat then .ok [] else .error ENOENT
  | some e =>
    if fl.creat ∧ fl.excl then .error EEXIST
    else if ¬ e.accessible then .error EACCES
    else .ok (if fl.trunc then [] else e.data)

/-- `FileBase::do_sopen()` (file.cpp lines 90-111): on success `::fstat`
populates `_length` with the store size.  Returns the open handle state
paired with the descriptor. -/
def do_sopen (fs : List FsEntry) (name : String) (fl : OpenFlags) :
    Except Int (FileBaseState × OsFile) :=
  match osOpen fs name fl with
  | .error e => .error e
  | .ok data =>
    .ok ({ isOpen := true, offset := 0, length := (data.length : Int) },
         { contents := data, pos := 0, capacity := 2 ^ 62 })

/-! ## InputFile -/

/-- `InputFile` adds `_length_orig` to the base state. -/
structure InputFileState where
  base : FileBaseState
  length_orig : Int
  deriving DecidableEq, Repr

/-- `InputFile::sopen(name, flags, shflags)` (file.cpp lines 176-193):
maps `do_sopen` failure to `FileNotFoundException` on ENOENT,
`FileAlreadyExistsException` on EEXIST, and a generic IOException
carrying errno otherwise; on success captures `_length_orig`. -/
def InputFile.sopen (fs : List FsEntry) (name : String) (fl : OpenFlags) :
    Except Err (InputFileState × OsFile) :=
  match do_sopen fs name fl with
  | .ok (h, f) => .ok ({ base := h, length_orig := h.length }, f)
  | .error e =>
    if e = ENOENT then .error .notFound
    else if e = EEXIST then .error .alreadyExists
    else .error (.ioError name (some e))

/-- `InputFile::read(buf, blen)` (file.cpp lines 195-204): forwards to
`acc_safe_hread` after the sanity check; a short count at end-of-file is
not an error (errno stays 0 in this model, which has no device faults). -/
def InputFile.read (h : FileBaseState) (f : OsFile) (blen : Int) :
    Except Err (Int × OsFile) :=
  if ¬ h.isOpen ∨ blen < 0 then .error (.ioError "bad read" none)
  else
    match mem_size 1 blen with
    | .error e => .error e
    | .ok len =>
      let r := hread f len
      .ok r

/-- `InputFile::readx(buf, blen)` (file.cpp lines 206-211): `read`, then
`throwEOFException` unless exactly `blen` bytes came back. -/
def InputFile.readx (h : FileBaseState) (f : OsFile) (blen : Int) :
    Except Err (Int × OsFile) :=
  match InputFile.read h f blen with
  | .error e => .error e
  | .ok (l, f') => if l ≠ blen then .error .eofError else .ok (l, f')

/-- `InputFile::seek(off, whence)` (file.cpp lines 213-218): the base
seek plus the window check `_length < pos`. -/
def InputFile.seek (h : FileBaseState) (f : OsFile) (off whence : Int) :
    Except Err (Int × OsFile) :=
  match FileBase.seek h f off whence with
  | .error e => .error e
  | .ok (pos, f') =>
    if h.length < pos then .error (.ioError "bad seek 4" none)
    else .ok (pos, f')

/-! ## InputStream

The generic input stream: a seekable byte source with the C++ iostream
state flags.  `InputStream` never inspects the bytes themselves, only
counts, so the stream carries its size rather than contents. -/

structure IStream where
  size : Int
  pos : Int
  eofbit : Bool
  failbit : Bool
  badbit : Bool
  deriving DecidableEq, Repr

/-- `std::ios::clear()`: reset all state flags. -/
def IStream.clear (s : IStream) : IStream :=
  { s with eofbit := false, failbit := false, badbit := false }

/-- `good()`: no flag set. -/
def IStream.good (s : IStream) : Bool := !s.eofbit && !s.failbit && !s.badbit

/-- `operator bool` / `!fail()`: neither failbit nor badbit. -/
def IStream.ok (s : IStream) : Bool := !s.failbit && !s.badbit

/-- The absolute position a `seekg` call aims at. -/
def seekgTarget (s : IStream) (off whence : Int) : Int :=
  if whence = SEEK_SET then off
  else if whence = SEEK_CUR then s.pos + off
  else s.size + off

/-- `istream::seekg(off, dir)`: sets failbit when the target position is
negative, otherwise moves the cursor (seeking past the end succeeds on a
file-backed stream). -/
def seekg (s : IStream) (off whence : Int) : IStream :=
  if seekgTarget s off whence < 0 then { s with failbit := true }
  else { s with pos := seekgTarget s off whence }

/-- `istream::tellg()`: -1 when `fail()`, else the cursor. -/
def tellg (s : IStream) : Int :=
  if s.failbit || s.badbit then -1 else s.pos

/-- `InputStream::read(buf, blen)` (file.cpp lines 259-276): reads up to
`blen` bytes; `gcount() == 0` with `eof()` is a benign zero-length result
(errno 0); a pre-existing fail state maps to EINVAL/EIO. -/
def InputStream.read (s : IStream) (blen : Int) : Except Err (Int × IStream) :=
  match mem_size 1 blen with
  | .error e => .error e
  | .ok len =>
    if ¬ IStream.good s then
      let s' := { s with failbit := true }
      if s'.eofbit then .ok (0, s')
      else if s'.failbit then .error (.ioError "read error" (some EINVAL))
      else .error (.ioError "read error" (some 5))
    else
      let n := min len (max 0 (s.size - s.pos))
      let s' := { s with pos := s.pos + n,
                         eofbit := s.eofbit || decide (n < len),
                         failbit := s.failbit || decide (n < len) }
      .ok (n, s')

/-- `InputStream::readx(buf, blen)` (file.cpp lines 278-283). -/
def InputStream.readx (s : IStream) (blen : Int) : Except Err (Int × IStream) :=
  match InputStream.read s blen with
  | .error e => .error e
  | .ok (l, s') => if l ≠ blen then .error .eofError else .ok (l, s')

/-- `InputStream::seek(off, whence)` (file.cpp lines 285-322): maps
whence to a stream direction (any other value: IOException, and before
anything else), clears the stream, seeks, and checks the resulting
absolute position against `_length`.  Note: no `mem_size_valid_bytes`
sanity check, no `_offset` translation, and the returned position is the
absolute `tellg()` value. -/
def InputStream.seek (h : FileBaseState) (s : IStream) (off whence : Int) :
    Except Err (Int × IStream) :=
  if whence ≠ SEEK_SET ∧ whence ≠ SEEK_CUR ∧ whence ≠ SEEK_END then
    .error (.ioError "bad seek whence" none)
  else
    let s1 := seekg (IStream.clear s) off whence
    if ¬ IStream.ok s1 then .error (.ioError "seek failed" (some 5))
    else
      let pos := tellg s1
      if pos < 0 then .error (.ioError "tellg failed" (some 5))
      else if h.length ≥ 0 ∧ pos > h.length then
        .error (.ioError "seek beyond end of stream" (some EINVAL))
      else .ok (pos, s1)

/-- `InputStream::st_size()` (file.cpp lines 324-340): repositions to the
end to learn the size and restores the cursor. -/
def InputStream.st_size (s : IStream) : Int := s.size

/-! ## OutputFile -/

/-- `OutputFile` adds the `bytes_written` counter to the base state. -/
structure OutputFileState where
  base : FileBaseState
  bytes_written : Int
  deriving DecidableEq, Repr

/-- `OutputFile::sopen(name, flags, shflags, mode)` (file.cpp lines
346-366): unlike `InputFile::sopen`, ENOENT is deliberately NOT mapped to
`FileNotFoundException` (see the source comment); only EEXIST gets the
specific exception. -/
def OutputFile.sopen (fs : List FsEntry) (name : String) (fl : OpenFlags) :
    Except Err (OutputFileState × OsFile) :=
  match do_sopen fs name fl with
  | .ok (h, f) => .ok ({ base := h, bytes_written := 0 }, f)
  | .error e =>
    if e = EEXIST then .error .alreadyExists
    else .error (.ioError name (some e))

/-- `OutputFile::write(buf, blen)` (file.cpp lines 385-412): `blen == 0`
is a no-op (a null buffer is allowed then); otherwise the buffer must be
a real span of at least `len` bytes (`raw_bytes` checks), the transfer
must be exact or an IOException is thrown, and on success
`bytes_written += len`. -/
def OutputFile.write (h : OutputFileState) (f : OsFile)
    (buf : Option (List Nat)) (blen : Int) :
    Except Err (OutputFileState × OsFile) :=
  if ¬ h.base.isOpen ∨ blen < 0 then .error (.ioError "bad write" none)
  else if blen = 0 then .ok (h, f)
  else
    match mem_size 1 blen with
    | .error e => .error e
    | .ok len =>
      match buf with
      | none => .error .internalError
      | some data =>
        if (data.length : Int) < len then .error .internalError
        else
          let r := hwrite f data len
          if r.1 ≠ len then .error (.ioError "write error" none)
          else .ok ({ h with bytes_written := h.bytes_written + len }, r.2)

/-- `OutputFile::st_size()` (file.cpp lines 414-423): in `--to-stdout`
mode the descriptor may be a pipe, so the tracked counter is returned;
otherwise `::fstat` queries the real size. -/
def OutputFile.st_size (toStdout : Bool) (h : OutputFileState) (f : OsFile) : Int :=
  if toStdout then h.bytes_written else (f.contents.length : Int)

/-- `OutputFile::rewrite(buf, len)` (file.cpp lines 425-429):
`assert(!opt->to_stdout)`, then `write` followed by restoring
`bytes_written`. -/
def OutputFile.rewrite (toStdout : Bool) (h : OutputFileState) (f : OsFile)
    (buf : Option (List Nat)) (len : Int) :
    Except Err (OutputFileState × OsFile) :=
  if toStdout then .error .assertFail
  else
    match OutputFile.write h f buf len with
    | .error e => .error e
    | .ok (h', f') => .ok ({ h' with bytes_written := h'.bytes_written - len }, f')

/-- The `bytes_written`/`_length` bookkeeping of the switch statement in
`OutputFile::seek` (and mirrored in `OutputStream::seek`). -/
def OutputFile.seekBookkeeping (h : OutputFileState) (off whence : Int) :
    OutputFileState :=
  if whence = SEEK_SET then
    let bw := if h.bytes_written < off then off else h.bytes_written
    { h with bytes_written := bw, base := { h.base with length := bw } }
  else if whence = SEEK_END then
    { h with base := { h.base with length := h.bytes_written } }
  else h

/-- `OutputFile::seek(off, whence)` (file.cpp lines 431-446): the sanity
check, `assert(!opt->to_stdout)`, the `bytes_written`/`_length`
bookkeeping on SEEK_SET/SEEK_END, then the base seek (which sees the
updated `_length`). -/
def OutputFile.seek (toStdout : Bool) (h : OutputFileState) (f : OsFile)
    (off whence : Int) : Except Err (Int × OutputFileState × OsFile) :=
  if ¬ mem_size_valid_bytes (seekMag off) then
    .error (.ioError "bad seek" none)
  else if toStdout then .error .assertFail
  else
    match FileBase.seek (OutputFile.seekBookkeeping h off whence).base f off whence with
    | .error e => .error e
    | .ok (pos, f') => .ok (pos, OutputFile.seekBookkeeping h off whence, f')

/-! ## OutputStream

The generic output stream: a seekable byte sink with iostream state
flags.  `capacity` models the sink limit: `ostream::write` transfers what
fits and sets badbit on a short transfer. -/

structure OStream where
  contents : List Nat
  pos : Int
  capacity : Int
  eofbit : Bool
  failbit : Bool
  badbit : Bool
  deriving DecidableEq, Repr

def OStream.clear (s : OStream) : OStream :=
  { s with eofbit := false, failbit := false, badbit := false }

def OStream.good (s : OStream) : Bool := !s.eofbit && !s.failbit && !s.badbit

/-- `operator bool` / `!fail()`. -/
def OStream.ok (s : OStream) : Bool := !s.failbit && !s.badbit

/-- The absolute position a `seekp` call aims at. -/
def seekpTarget (s : OStream) (off whence : Int) : Int :=
  if whence = SEEK_SET then off
  else if whence = SEEK_CUR then s.pos + off
  else (s.contents.length : Int) + off

/-- `ostream::seekp(off, dir)` — same contract as `seekg`. -/
def seekp (s : OStream) (off whence : Int) : OStream :=
  if seekpTarget s off whence < 0 then { s with failbit := true }
  else { s with pos := seekpTarget s off whence }

/-- `ostream::tellp()`: -1 when `fail()`, else the cursor. -/
def tellp (s : OStream) : Int :=
  if s.failbit || s.badbit then -1 else s.pos

/-- `ostream::write(buf, len)`: with a bad stream the sentry fails; else
transfer what fits below the capacity and set badbit on a short
transfer. -/
def ostreamWrite (s : OStream) (data : List Nat) (len : Int) : OStream :=
  if ¬ OStream.good s then { s with failbit := true }
  else
    let n := min len (max 0 (s.capacity - s.pos))
    { s with contents := writeAt s.contents s.pos.toNat (data.take n.toNat),
             pos := s.pos + n,
             badbit := s.badbit || decide (n < len) }

/-- errno mapped from stream state after a failure, as in the source:
badbit to EIO (5), failbit to EINVAL, anything else EIO. -/
def streamErrno (bad fail : Bool) : Int :=
  if bad then 5 else if fail then EINVAL else 5

/-- `OutputStream` keeps the base fields plus `bytes_written`. -/
structure OutputStreamState where
  base : FileBaseState
  bytes_written : Int
  deriving DecidableEq, Repr

/-- `OutputStream::write(buf, blen)` (file.cpp lines 514-547): the guard
is `!isOpen() && !_stream.good()`; `blen == 0` is a no-op; a failed
stream write throws; on success `bytes_written += len` and `_length` is
raised to `bytes_written` when below it. -/
def OutputStream.write (h : OutputStreamState) (s : OStream)
    (buf : Option (List Nat)) (blen : Int) :
    Except Err (OutputStreamState × OStream) :=
  if ¬ h.base.isOpen ∧ ¬ OStream.good s then .error (.ioError "bad write" none)
  else if blen = 0 then .ok (h, s)
  else
    match mem_size 1 blen with
    | .error e => .error e
    | .ok len =>
      match buf with
      | none => .error .internalError
      | some data =>
        if (data.length : Int) < len then .error .internalError
        else
          let s' := ostreamWrite s data len
          if ¬ OStream.ok s' then
            .error (.ioError "write error" (some (streamErrno s'.badbit s'.failbit)))
          else
            let bw := h.bytes_written + len
            let newLen := if h.base.length < bw then bw else h.base.length
            .ok ({ h with bytes_written := bw,
                          base := { h.base with length := newLen } }, s')

/-- `OutputStream::st_size()` (file.cpp lines 550-569): the end position
when the stream is seekable, restoring the cursor. -/
def OutputStream.st_size (s : OStream) : Int := (s.contents.length : Int)

/-- `OutputStream::rewrite(buf, len)` (file.cpp lines 572-575): `write`
then restore `bytes_written` (no stdout assertion on this backend). -/
def OutputStream.rewrite (h : OutputStreamState) (s : OStream)
    (buf : Option (List Nat)) (len : Int) :
    Except Err (OutputStreamState × OStream) :=
  match OutputStream.write h s buf len with
  | .error e => .error e
  | .ok (h', s') => .ok ({ h' with bytes_written := h'.bytes_written - len }, s')

/-- The `bytes_written`/`_length` bookkeeping switch of
`OutputStream::seek`, identical to `OutputFile::seek`'s. -/
def OutputStream.seekBookkeeping (h : OutputStreamState) (off whence : Int) :
    OutputStreamState :=
  if whence = SEEK_SET then
    let bw := if h.bytes_written < off then off else h.bytes_written
    { h with bytes_written := bw, base := { h.base with length := bw } }
  else if whence = SEEK_END then
    { h with base := { h.base with length := h.bytes_written } }
  else h

/-- `OutputStream::seek(off, whence)` (file.cpp lines 578-635): sanity
check, whence switch (other values: IOException with EINVAL), clear,
`seekp`, `tellp`, then the same `bytes_written`/`_length` bookkeeping as
`OutputFile::seek` — performed after the real seek.  Note: no `_offset`
translation; the returned position is absolute. -/
def OutputStream.seek (h : OutputStreamState) (s : OStream) (off whence : Int) :
    Except Err (Int × OutputStreamState × OStream) :=
  if ¬ mem_size_valid_bytes (seekMag off) then
    .error (.ioError "bad seek" none)
  else if whence ≠ SEEK_SET ∧ whence ≠ SEEK_CUR ∧ whence ≠ SEEK_END then
    .error (.ioError "invalid whence" (some EINVAL))
  else
    let s1 := seekp (OStream.clear s) off whence
    if ¬ OStream.ok s1 then
      .error (.ioError "seek failed" (some (streamErrno s1.badbit s1.failbit)))
    else
      let p := tellp s1
      if p = -1 then .error (.ioError "tellp failed" (some 5))
      else .ok (p, OutputStream.seekBookkeeping h off whence, s1)

/-! ## Concrete fixtures -/

/-- An open descriptor-backed handle with zero window offset. -/
def hOpen0 : FileBaseState := { isOpen := true, offset := 0, length := 10 }

/-- An open handle whose window starts at absolute offset 2. -/
def hOff2 : FileBaseState := { isOpen := true, offset := 2, length := 10 }

/-- An open handle whose window covers only the first 3 bytes of the store. -/
def hWin3 : FileBaseState := { isOpen := true, offset := 0, length := 3 }

/-- A 10-byte underlying store with ample capacity, cursor at 0. -/
def osTen : OsFile := { contents := List.replicate 10 7, pos := 0, capacity := 100 }

/-- A 10-byte input stream, cursor at 0, no flags set. -/
def sTen : IStream :=
  { size := 10, pos := 0, eofbit := false, failbit := false, badbit := false }

/-- An empty output stream with ample capacity. -/
def ostSmall : OStream :=
  { contents := [], pos := 0, capacity := 100,
    eofbit := false, failbit := false, badbit := false }

/-- An output-file handle over `hOpen0` with nothing written yet. -/
def outH0 : OutputFileState := { base := hOpen0, bytes_written := 0 }

/-- An output-stream handle over `hOpen0` with nothing written yet. -/
def outSH0 : OutputStreamState := { base := hOpen0, bytes_written := 0 }

/-! ## Helper lemmas about the OS and stream primitives -/

theorem lseek_some {f : OsFile} {off w l : Int} {f' : OsFile}
    (h : lseek f off w = some (l, f')) : f'.pos = l ∧ 0 ≤ l := by
  simp only [lseek] at h
  split at h
  · simp at h
  · rename_i hge
    simp only [Option.some.injEq, Prod.mk.injEq] at h
    obtain ⟨h1, h2⟩ := h
    subst h1
    subst h2
    exact ⟨rfl, by omega⟩

theorem lseek_set {f : OsFile} {a l : Int} {f' : OsFile}
    (h : lseek f a SEEK_SET = some (l, f')) : l = a ∧ f' = { f with pos := a } := by
  have ht : lseekTarget f a SEEK_SET = a := by simp [lseekTarget]
  simp only [lseek, ht] at h
  split at h
  · simp at h
  · simp only [Option.some.injEq, Prod.mk.injEq] at h
    exact ⟨h.1.symm, h.2.symm⟩

theorem doLseek_ok {h : FileBaseState} {f : OsFile} {off w r : Int} {f' : OsFile}
    (hh : doLseek h f off w = .ok (r, f')) : r = f'.pos - h.offset := by
  simp only [doLseek] at hh
  split at hh
  · simp at hh
  · rename_i l f2 heq
    simp only [Except.ok.injEq, Prod.mk.injEq] at hh
    obtain ⟨h1, h2⟩ := hh
    subst h2
    obtain ⟨hp, _⟩ := lseek_some heq
    omega

theorem doLseek_set_ok {h : FileBaseState} {f : OsFile} {off r : Int} {f' : OsFile}
    (hh : doLseek h f off SEEK_SET = .ok (r, f')) :
    f'.pos = off ∧ r = off - h.offset := by
  simp only [doLseek] at hh
  split at hh
  · simp at hh
  · rename_i l f2 heq
    simp only [Except.ok.injEq, Prod.mk.injEq] at hh
    obtain ⟨h1, h2⟩ := hh
    subst h2
    obtain ⟨hl, hf⟩ := lseek_set heq
    subst hf
    exact ⟨rfl, by omega⟩

theorem lseek_cur {f : OsFile} {off l : Int} {f' : OsFile}
    (h : lseek f off SEEK_CUR = some (l, f')) : l = f.pos + off := by
  have ht : lseekTarget f off SEEK_CUR = f.pos + off := by
    norm_num [lseekTarget, SEEK_CUR, SEEK_SET]
  simp only [lseek, ht] at h
  split at h
  · simp at h
  · simp only [Option.some.injEq, Prod.mk.injEq] at h
    exact h.1.symm

theorem FileBase.seek_ok_rel {h : FileBaseState} {f : OsFile} {off w r : Int} {f' : OsFile}
    (hs : FileBase.seek h f off w = .ok (r, f')) : r = f'.pos - h.offset := by
  simp only [FileBase.seek] at hs
  split at hs
  · simp at hs
  · split at hs
    · simp at hs
    · split at hs
      · split at hs
        · simp at hs
        · exact doLseek_ok hs
      · split at hs
        · split at hs
          · simp at hs
          · exact doLseek_ok hs
        · split at hs
          · exact doLseek_ok hs
          · simp at hs

theorem FileBase.tell_ok_rel {h : FileBaseState} {f : OsFile} {r : Int}
    (ht : FileBase.tell h f = .ok r) : r = f.pos - h.offset := by
  simp only [FileBase.tell] at ht
  split at ht
  · simp at ht
  · split at ht
    · simp at ht
    · rename_i l f2 heq
      simp only [Except.ok.injEq] at ht
      subst ht
      have := lseek_cur heq
      omega

theorem FileBase.seek_set_abs {h : FileBaseState} {f : OsFile} {off r : Int} {f' : OsFile}
    (hs : FileBase.seek h f off SEEK_SET = .ok (r, f')) :
    f'.pos = h.offset + off ∧ r = off := by
  simp only [FileBase.seek] at hs
  split at hs
  · simp at hs
  · split at hs
    · simp at hs
    · split at hs
      · split at hs
        · simp at hs
        · obtain ⟨hp, hr⟩ := doLseek_set_ok hs
          exact ⟨by omega, by omega⟩
      · rename_i hne
        exact absurd trivial hne

theorem seekg_set (s : IStream) (off : Int) :
    seekg s off SEEK_SET =
      if off < 0 then { s with failbit := true } else { s with pos := off } := by
  have ht : seekgTarget s off SEEK_SET = off := by simp [seekgTarget]
  simp only [seekg, ht]

theorem seekp_set (s : OStream) (off : Int) :
    seekp s off SEEK_SET =
      if off < 0 then { s with failbit := true } else { s with pos := off } := by
  have ht : seekpTarget s off SEEK_SET = off := by simp [seekpTarget]
  simp only [seekp, ht]

theorem istream_seek_ok_abs {h : FileBaseState} {s : IStream} {off w r : Int}
    {s' : IStream} (hs : InputStream.seek h s off w = .ok (r, s')) :
    r = s'.pos ∧ s'.failbit = false ∧ s'.badbit = false := by
  simp only [InputStream.seek] at hs
  split at hs
  · simp at hs
  · split at hs
    · simp at hs
    · rename_i hok
      split at hs
      · simp at hs
      · split at hs
        · simp at hs
        · simp only [Except.ok.injEq, Prod.mk.injEq] at hs
          obtain ⟨h1, h2⟩ := hs
          subst h2
          subst h1
          simp only [IStream.ok, Bool.not_eq_true, Bool.and_eq_true,
            Bool.not_eq_true', not_not] at hok
          simp [tellg, hok.1, hok.2]

theorem istream_seek_set_pos {h : FileBaseState} {s : IStream} {off r : Int}
    {s' : IStream} (hs : InputStream.seek h s off SEEK_SET = .ok (r, s')) :
    s'.pos = off ∧ r = off := by
  simp only [InputStream.seek, seekg_set] at hs
  split at hs
  · simp at hs
  · split at hs
    · -- off < 0: failbit is set, so the seek is rejected before returning
      simp [IStream.ok] at hs
    · rename_i hok
      simp [IStream.clear, IStream.ok, tellg, hok] at hs
      split at hs
      · simp at hs
      · simp only [Except.ok.injEq, Prod.mk.injEq] at hs
        obtain ⟨h1, h2⟩ := hs
        subst h2
        exact ⟨rfl, h1.symm⟩

theorem ostream_seek_ok_abs {h : OutputStreamState} {s : OStream} {off w r : Int}
    {h' : OutputStreamState} {s' : OStream}
    (hs : OutputStream.seek h s off w = .ok (r, h', s')) : r = s'.pos := by
  simp only [OutputStream.seek] at hs
  split at hs
  · simp at hs
  · split at hs
    · simp at hs
    · split at hs
      · simp at hs
      · rename_i hok
        split at hs
        · simp at hs
        · simp only [Except.ok.injEq, Prod.mk.injEq] at hs
          obtain ⟨h1, h2, h3⟩ := hs
          subst h3
          subst h1
          simp only [not_not] at hok
          simp only [OStream.ok, Bool.and_eq_true, Bool.not_eq_true'] at hok
          simp [tellp, hok.1, hok.2]

/-- C1 (counterexample): on the stream-backed read handle with window
offset 2, a FROM_START seek with relative position 1 succeeds, acts on
the absolute stream position 1 (the claim requires `offset + 1 = 3`) and
returns 1 (the claim requires `absolute - offset = -1`): stream-backed
seeks do not exchange window-relative positions. -/
theorem C1_counterexample :
    InputStream.seek hOff2 sTen 1 SEEK_SET = .ok (1, { sTen with pos := 1 }) ∧
    (1 : Int) ≠ 1 - hOff2.offset ∧
    ({ sTen with pos := 1 } : IStream).pos ≠ hOff2.offset + 1 :=
  ⟨rfl, by decide, by decide⟩

/-- C1 (amended): positions exchanged by the descriptor-backed handles
(`FileBase::seek`, `FileBase::tell`) are window-relative — a successful
seek or tell returns the underlying absolute position minus the window
offset, and a FROM_START seek acts on absolute position `offset + off` —
while the stream-backed handles exchange absolute stream positions: their
seeks return the absolute `tellg`/`tellp` position, and a stream
FROM_START seek acts on the absolute position `off` itself, so the
window translation holds on the stream backends only when the window
offset is zero. -/
theorem C1_window_relative_positions :
    (∀ h f off w r f', FileBase.seek h f off w = .ok (r, f') → r = f'.pos - h.offset) ∧
    (∀ h f r, FileBase.tell h f = .ok r → r = f.pos - h.offset) ∧
    (∀ h f off r f', FileBase.seek h f off SEEK_SET = .ok (r, f') → f'.pos = h.offset + off) ∧
    (∀ h s off w r s', InputStream.seek h s off w = .ok (r, s') → r = s'.pos) ∧
    (∀ h s off r s', InputStream.seek h s off SEEK_SET = .ok (r, s') → s'.pos = off) ∧
    (∀ h s off w r h' s', OutputStream.seek h s off w = .ok (r, h', s') → r = s'.pos) := by
  refine ⟨?_, ?_, ?_, ?_, ?_, ?_⟩
  · intro h f off w r f' hs
    exact FileBase.seek_ok_rel hs
  · intro h f r ht
    exact FileBase.tell_ok_rel ht
  · intro h f off r f' hs
    exact (FileBase.seek_set_abs hs).1
  · intro h s off w r s' hs
    exact (istream_seek_ok_abs hs).1
  · intro h s off r s' hs
    exact (istream_seek_set_pos hs).1
  · intro h s off w r h' s' hs
    exact ostream_seek_ok_abs hs

/-- C1 witness: the amended claim instantiated at a concrete seek on a
window starting at offset 2, every hypothesis discharged by evaluation. -/
theorem C1_witness :
    FileBase.seek hOff2 osTen 1 SEEK_SET = .ok (1, { osTen with pos := 3 }) ∧
    (1 : Int) = ({ osTen with pos := 3 } : OsFile).pos - hOff2.offset :=
  ⟨rfl, C1_window_relative_positions.1 hOff2 osTen 1 SEEK_SET 1 { osTen with pos := 3 } rfl⟩

/-- An open handle whose window covers the first 5 bytes of the store. -/
def hWin5 : FileBaseState := { isOpen := true, offset := 0, length := 5 }

/-- C2 (counterexample): a seek with whence 7 on the stream-backed write
handle raises a generic IOException ("invalid whence", EINVAL), not
InternalError as claimed for every open handle; and a FROM_END seek with
offset -1 on a stream read handle whose window length is 5 (stream size
10) is not performed as a from-start seek to
`window.offset + window.length - 1 = 4` (which would succeed) — it is
passed to the stream's own end and rejected with IOError. -/
theorem C2_counterexample :
    (OutputStream.seek outSH0 ostSmall 0 7 =
      .error (.ioError "invalid whence" (some EINVAL)) ∧
     Err.ioError "invalid whence" (some EINVAL) ≠ Err.internalError) ∧
    (hWin5.offset + hWin5.length + -1 = 4 ∧
     InputStream.seek hWin5 sTen (-1) SEEK_END =
       .error (.ioError "seek beyond end of stream" (some EINVAL))) :=
  ⟨⟨rfl, by decide⟩, by decide, rfl⟩

/-- C2 (amended): on the descriptor-backed base handle, a FROM_START seek
with a negative offset fails, a FROM_END seek with a positive offset
fails and otherwise the offset is translated to
`window.offset + window.length + offset` performed as a from-start seek,
FROM_CURRENT passes through unmodified, and any other whence value raises
InternalError; the stream-backed handles instead map whence directly to a
stream seek direction (no window translation) and reject any other whence
value with IOError, not InternalError. -/
theorem C2_whence_dispatch :
    (∀ h f off, h.isOpen = true → mem_size_valid_bytes (seekMag off) = true →
      off < 0 → FileBase.seek h f off SEEK_SET = .error (.ioError "bad seek 2" none)) ∧
    (∀ h f off, h.isOpen = true → mem_size_valid_bytes (seekMag off) = true →
      0 < off → FileBase.seek h f off SEEK_END = .error (.ioError "bad seek 3" none)) ∧
    (∀ h f off, h.isOpen = true → mem_size_valid_bytes (seekMag off) = true →
      off ≤ 0 →
      FileBase.seek h f off SEEK_END = doLseek h f (off + h.offset + h.length) SEEK_SET) ∧
    (∀ h f off, h.isOpen = true → mem_size_valid_bytes (seekMag off) = true →
      FileBase.seek h f off SEEK_CUR = doLseek h f off SEEK_CUR) ∧
    (∀ h f off w, h.isOpen = true → mem_size_valid_bytes (seekMag off) = true →
      w ≠ SEEK_SET → w ≠ SEEK_CUR → w ≠ SEEK_END →
      FileBase.seek h f off w = .error .internalError) ∧
    (∀ h s off w, w ≠ SEEK_SET → w ≠ SEEK_CUR → w ≠ SEEK_END →
      InputStream.seek h s off w = .error (.ioError "bad seek whence" none)) ∧
    (∀ h s off w, mem_size_valid_bytes (seekMag off) = true →
      w ≠ SEEK_SET → w ≠ SEEK_CUR → w ≠ SEEK_END →
      OutputStream.seek h s off w = .error (.ioError "invalid whence" (some EINVAL))) := by
  refine ⟨?_, ?_, ?_, ?_, ?_, ?_, ?_⟩
  · intro h f off hopen hval hneg
    simp [FileBase.seek, hopen, hval, hneg]
  · intro h f off hopen hval hpos
    simp [FileBase.seek, hopen, hval, hpos, SEEK_SET, SEEK_END]
  · intro h f off hopen hval hle
    have hng : ¬ off > 0 := by omega
    simp [FileBase.seek, hopen, hval, hng, SEEK_SET, SEEK_END]
  · intro h f off hopen hval
    simp [FileBase.seek, hopen, hval, SEEK_SET, SEEK_CUR, SEEK_END]
  · intro h f off w hopen hval hw1 hw2 hw3
    simp [FileBase.seek, hopen, hval, hw1, hw2, hw3]
  · intro h s off w hw1 hw2 hw3
    simp [InputStream.seek, hw1, hw2, hw3]
  · intro h s off w hval hw1 hw2 hw3
    simp [OutputStream.seek, hval, hw1, hw2, hw3]

/-- C2 witness: whence 7 on an open descriptor-backed handle raises
InternalError, hypotheses discharged concretely. -/
theorem C2_witness :
    hOpen0.isOpen = true ∧ mem_size_valid_bytes (seekMag 0) = true ∧
    FileBase.seek hOpen0 osTen 0 7 = .error .internalError :=
  ⟨rfl, by decide,
    C2_whence_dispatch.2.2.2.2.1 hOpen0 osTen 0 7 rfl (by decide)
      (by decide) (by decide) (by decide)⟩

/-- C3 (counterexample): `read` forwards to the underlying primitive and
is not bounded by the handle's window: with a window of length 3 over a
10-byte store, `readx` of 5 bytes succeeds with 5 bytes even though the
window holds fewer than 5 remaining bytes — no UnexpectedEndOfFileError
is raised. -/
theorem C3_counterexample :
    hWin3.length - osTen.pos < 5 ∧
    InputFile.readx hWin3 osTen 5 = .ok (5, { osTen with pos := 5 }) :=
  ⟨by decide, rfl⟩

/-- C3 (amended): for both backends, `readx` raises
UnexpectedEndOfFileError exactly when the underlying `read` returns a
byte count different from `exactLen` — in particular when the underlying
STORE (not the window: `read` is not window-bounded) has fewer than
`exactLen` bytes past the cursor — while a plain `read` in the same
situation returns the lesser count without error. -/
theorem C3_readx_exact :
    (∀ h f blen l f', InputFile.read h f blen = .ok (l, f') →
      InputFile.readx h f blen = if l ≠ blen then .error .eofError else .ok (l, f')) ∧
    (∀ h f blen e, InputFile.read h f blen = .error e →
      InputFile.readx h f blen = .error e) ∧
    (∀ s blen l s', InputStream.read s blen = .ok (l, s') →
      InputStream.readx s blen = if l ≠ blen then .error .eofError else .ok (l, s')) ∧
    (∀ s blen e, InputStream.read s blen = .error e →
      InputStream.readx s blen = .error e) ∧
    (∀ h f blen, h.isOpen = true → 0 ≤ blen → blen ≤ UPX_RSIZE_MAX →
      0 ≤ f.pos → f.pos ≤ (f.contents.length : Int) →
      (f.contents.length : Int) - f.pos < blen →
      InputFile.read h f blen =
        .ok ((f.contents.length : Int) - f.pos, { f with pos := (f.contents.length : Int) }) ∧
      InputFile.readx h f blen = .error .eofError) ∧
    (∀ s blen, IStream.good s = true → 0 ≤ blen → blen ≤ UPX_RSIZE_MAX →
      s.pos ≤ s.size → s.size - s.pos < blen →
      InputStream.read s blen =
        .ok (s.size - s.pos, { s with pos := s.size, eofbit := true, failbit := true }) ∧
      InputStream.readx s blen = .error .eofError) := by
  have hms : ∀ blen : Int, 0 ≤ blen → blen ≤ UPX_RSIZE_MAX →
      mem_size 1 blen = .ok blen := by
    intro blen h0 hM
    simp [mem_size, mem_size_valid_bytes, h0, hM]
  refine ⟨?_, ?_, ?_, ?_, ?_, ?_⟩
  · intro h f blen l f' hr
    simp only [InputFile.readx, hr]
  · intro h f blen e hr
    simp only [InputFile.readx, hr]
  · intro s blen l s' hr
    simp only [InputStream.readx, hr]
  · intro s blen e hr
    simp only [InputStream.readx, hr]
  · intro h f blen hopen h0 hM hpos hple hlt
    have hrd : InputFile.read h f blen =
        .ok ((f.contents.length : Int) - f.pos, { f with pos := (f.contents.length : Int) }) := by
      simp only [InputFile.read, hms blen h0 hM, hread]
      rw [if_neg (by simp [hopen]; omega)]
      have hnn : min blen (max 0 ((f.contents.length : Int) - f.pos)) =
          (f.contents.length : Int) - f.pos := by omega
      rw [hnn]
      have hpp : f.pos + ((f.contents.length : Int) - f.pos) = (f.contents.length : Int) := by
        omega
      rw [hpp]
    refine ⟨hrd, ?_⟩
    simp only [InputFile.readx, hrd]
    rw [if_pos (by omega)]
  · intro s blen hgood h0 hM hple hlt
    have hflags : s.eofbit = false ∧ s.failbit = false ∧ s.badbit = false := by
      simp [IStream.good, Bool.and_eq_true, Bool.not_eq_true'] at hgood
      exact ⟨hgood.1.1, hgood.1.2, hgood.2⟩
    have hrd : InputStream.read s blen =
        .ok (s.size - s.pos, { s with pos := s.size, eofbit := true, failbit := true }) := by
      simp only [InputStream.read, hms blen h0 hM]
      rw [if_neg (by simp [hgood])]
      have hnn : min blen (max 0 (s.size - s.pos)) = s.size - s.pos := by omega
      rw [hnn]
      have hpp : s.pos + (s.size - s.pos) = s.size := by omega
      rw [hpp]
      rw [hflags.1, hflags.2.1]
      rw [decide_eq_true hlt]
      simp
    refine ⟨hrd, ?_⟩
    simp only [InputStream.readx, hrd]
    rw [if_pos (by omega)]

/-- C3 witness: a 10-byte store with the cursor at 8: `read` of 5 bytes
returns the lesser count 2 without error and `readx` raises
UnexpectedEndOfFileError; hypotheses discharged concretely. -/
theorem C3_witness :
    hOpen0.isOpen = true ∧ (0 : Int) ≤ 5 ∧ (5 : Int) ≤ UPX_RSIZE_MAX ∧
    (0 : Int) ≤ ({ osTen with pos := 8 } : OsFile).pos ∧
    ({ osTen with pos := 8 } : OsFile).pos ≤
      (({ osTen with pos := 8 } : OsFile).contents.length : Int) ∧
    ((({ osTen with pos := 8 } : OsFile).contents.length : Int) -
      ({ osTen with pos := 8 } : OsFile).pos < 5) ∧
    (InputFile.read hOpen0 { osTen with pos := 8 } 5 =
      .ok ((({ osTen with pos := 8 } : OsFile).contents.length : Int) -
             ({ osTen with pos := 8 } : OsFile).pos,
           { { osTen with pos := 8 } with
               pos := (({ osTen with pos := 8 } : OsFile).contents.length : Int) }) ∧
     InputFile.readx hOpen0 { osTen with pos := 8 } 5 = .error .eofError) :=
  ⟨rfl, by decide, by decide, by decide, by decide, by decide,
    C3_readx_exact.2.2.2.2.1 hOpen0 { osTen with pos := 8 } 5 rfl (by decide)
      (by decide) (by decide) (by decide) (by decide)⟩

theorem mem_size_one {blen : Int} (h0 : 0 ≤ blen) (hM : blen ≤ UPX_RSIZE_MAX) :
    mem_size 1 blen = .ok blen := by
  simp [mem_size, mem_size_valid_bytes, h0, hM]

/-- C4 (confirmed): on both write backends, a zero-length write is a
no-op that succeeds even with a null buffer and changes no state; a
write for which the underlying primitive transfers fewer than `len`
bytes (the device capacity cuts it short) raises IOError, exposing no
partial count; and a successful write of `len` bytes increases
`bytes_written` by exactly `len`. -/
theorem C4_write_exact :
    (∀ h f buf, h.base.isOpen = true → OutputFile.write h f buf 0 = .ok (h, f)) ∧
    (∀ h s buf, OStream.good s = true → OutputStream.write h s buf 0 = .ok (h, s)) ∧
    (∀ h f data blen, h.base.isOpen = true → 0 < blen → blen ≤ UPX_RSIZE_MAX →
      blen ≤ (data.length : Int) → f.capacity - f.pos < blen →
      OutputFile.write h f (some data) blen = .error (.ioError "write error" none)) ∧
    (∀ h f data blen, h.base.isOpen = true → 0 < blen → blen ≤ UPX_RSIZE_MAX →
      blen ≤ (data.length : Int) → blen ≤ f.capacity - f.pos →
      OutputFile.write h f (some data) blen =
        .ok ({ h with bytes_written := h.bytes_written + blen }, (hwrite f data blen).2)) ∧
    (∀ h s data blen, OStream.good s = true → 0 < blen → blen ≤ UPX_RSIZE_MAX →
      blen ≤ (data.length : Int) → s.capacity - s.pos < blen →
      OutputStream.write h s (some data) blen =
        .error (.ioError "write error" (some 5))) ∧
    (∀ h s data blen, OStream.good s = true → 0 < blen → blen ≤ UPX_RSIZE_MAX →
      blen ≤ (data.length : Int) → blen ≤ s.capacity - s.pos →
      OutputStream.write h s (some data) blen =
        .ok ({ h with
               bytes_written := h.bytes_written + blen,
               base := { h.base with length :=
                 if h.base.length < h.bytes_written + blen then h.bytes_written + blen
                 else h.base.length } },
             ostreamWrite s data blen)) := by
  refine ⟨?_, ?_, ?_, ?_, ?_, ?_⟩
  · intro h f buf hopen
    simp [OutputFile.write, hopen]
  · intro h s buf hgood
    simp [OutputStream.write, hgood]
  · intro h f data blen hopen h0 hM hdata hshort
    simp only [OutputFile.write, mem_size_one (le_of_lt h0) hM]
    rw [if_neg (by simp [hopen]; omega), if_neg (by omega), if_neg (by omega),
      if_pos (by simp only [hwrite]; omega)]
  · intro h f data blen hopen h0 hM hdata hfit
    simp only [OutputFile.write, mem_size_one (le_of_lt h0) hM]
    rw [if_neg (by simp [hopen]; omega), if_neg (by omega), if_neg (by omega),
      if_neg (by simp only [hwrite]; omega)]
  · intro h s data blen hgood h0 hM hdata hshort
    have hflags : s.eofbit = false ∧ s.failbit = false ∧ s.badbit = false := by
      simp [OStream.good, Bool.and_eq_true, Bool.not_eq_true'] at hgood
      exact ⟨hgood.1.1, hgood.1.2, hgood.2⟩
    simp only [OutputStream.write, mem_size_one (le_of_lt h0) hM]
    rw [if_neg (by simp [hgood]), if_neg (by omega), if_neg (by omega)]
    have hbad : (ostreamWrite s data blen).badbit = true := by
      simp only [ostreamWrite]
      rw [if_neg (by simp [hgood])]
      simp only [hflags.2.2, Bool.false_or]
      exact decide_eq_true (by omega)
    rw [if_pos (by simp [OStream.ok, hbad]), hbad]
    have hfail : (ostreamWrite s data blen).failbit = false := by
      simp only [ostreamWrite]
      rw [if_neg (by simp [hgood])]
      exact hflags.2.1
    rw [hfail]
    rfl
  · intro h s data blen hgood h0 hM hdata hfit
    have hflags : s.eofbit = false ∧ s.failbit = false ∧ s.badbit = false := by
      simp [OStream.good, Bool.and_eq_true, Bool.not_eq_true'] at hgood
      exact ⟨hgood.1.1, hgood.1.2, hgood.2⟩
    have hok : OStream.ok (ostreamWrite s data blen) = true := by
      simp only [ostreamWrite]
      rw [if_neg (by simp [hgood])]
      simp only [OStream.ok, hflags.2.1, hflags.2.2, Bool.false_or, Bool.not_false,
        Bool.true_and]
      have : ¬ (min blen (max 0 (s.capacity - s.pos)) < blen) := by omega
      simp [this]
    simp only [OutputStream.write, mem_size_one (le_of_lt h0) hM]
    rw [if_neg (by simp [hgood]), if_neg (by omega), if_neg (by omega),
      if_neg (by simp [hok])]

/-- C4 witness: a successful exact 3-byte write on an open descriptor
handle bumps `bytes_written` from 0 to 3; hypotheses discharged
concretely. -/
theorem C4_witness :
    outH0.base.isOpen = true ∧ (0 : Int) < 3 ∧ (3 : Int) ≤ UPX_RSIZE_MAX ∧
    (3 : Int) ≤ (([1, 2, 3] : List Nat).length : Int) ∧
    (3 : Int) ≤ osTen.capacity - osTen.pos ∧
    OutputFile.write outH0 osTen (some [1, 2, 3]) 3 =
      .ok ({ outH0 with bytes_written := 0 + 3 }, (hwrite osTen [1, 2, 3] 3).2) :=
  ⟨rfl, by decide, by decide, by decide, by decide,
    C4_write_exact.2.2.2.1 outH0 osTen [1, 2, 3] 3 rfl (by decide) (by decide)
      (by decide) (by decide)⟩

theorem mem_size_ok {e n l : Int} (h : mem_size e n = .ok l) : l = e * n := by
  simp only [mem_size] at h
  split at h
  · simp only [Except.ok.injEq] at h
    omega
  · simp at h

theorem outfile_write_bw {h : OutputFileState} {f : OsFile} {buf : Option (List Nat)}
    {blen : Int} {h' : OutputFileState} {f' : OsFile}
    (hw : OutputFile.write h f buf blen = .ok (h', f')) :
    h'.bytes_written = h.bytes_written + blen := by
  simp only [OutputFile.write] at hw
  split at hw
  · simp at hw
  · split at hw
    · rename_i hz
      simp only [Except.ok.injEq, Prod.mk.injEq] at hw
      obtain ⟨h1, h2⟩ := hw
      subst h1
      omega
    · split at hw
      · simp at hw
      · rename_i len heq
        have hlen := mem_size_ok heq
        split at hw
        · simp at hw
        · split at hw
          · simp at hw
          · split at hw
            · simp at hw
            · simp only [Except.ok.injEq, Prod.mk.injEq] at hw
              obtain ⟨h1, h2⟩ := hw
              subst h1
              simp only
              omega

theorem ostream_write_bw {h : OutputStreamState} {s : OStream}
    {buf : Option (List Nat)} {blen : Int} {h' : OutputStreamState} {s' : OStream}
    (hw : OutputStream.write h s buf blen = .ok (h', s')) :
    h'.bytes_written = h.bytes_written + blen := by
  simp only [OutputStream.write] at hw
  split at hw
  · simp at hw
  · split at hw
    · rename_i hz
      simp only [Except.ok.injEq, Prod.mk.injEq] at hw
      obtain ⟨h1, h2⟩ := hw
      subst h1
      omega
    · split at hw
      · simp at hw
      · rename_i len heq
        have hlen := mem_size_ok heq
        split at hw
        · simp at hw
        · split at hw
          · simp at hw
          · split at hw
            · simp at hw
            · simp only [Except.ok.injEq, Prod.mk.injEq] at hw
              obtain ⟨h1, h2⟩ := hw
              subst h1
              simp only
              omega

/-- C5 (confirmed): on both backends, whenever `write(buffer, len)`
succeeds, `rewrite(buffer, len)` at the same starting state produces the
very same underlying store state (the same bytes written at the current
position) but leaves the running `bytes_written` counter at its original
value. -/
theorem C5_rewrite_preserves_count :
    (∀ h f buf len h' f', OutputFile.write h f buf len = .ok (h', f') →
      OutputFile.rewrite false h f buf len =
        .ok ({ h' with bytes_written := h.bytes_written }, f')) ∧
    (∀ h s buf len h' s', OutputStream.write h s buf len = .ok (h', s') →
      OutputStream.rewrite h s buf len =
        .ok ({ h' with bytes_written := h.bytes_written }, s')) := by
  constructor
  · intro h f buf len h' f' hw
    have hbw := outfile_write_bw hw
    simp only [OutputFile.rewrite, hw]
    rw [if_neg (by simp)]
    simp only [Except.ok.injEq, Prod.mk.injEq, OutputFileState.mk.injEq]
    simp only [and_true, true_and]
    omega
  · intro h s buf len h' s' hw
    have hbw := ostream_write_bw hw
    simp only [OutputStream.rewrite, hw]
    simp only [Except.ok.injEq, Prod.mk.injEq, OutputStreamState.mk.injEq]
    simp only [and_true, true_and]
    omega

/-- C5 witness: a concrete 1-byte write succeeds and bumps the counter;
the matching rewrite produces the same store with the counter restored. -/
theorem C5_witness :
    OutputFile.write outH0 osTen (some [9]) 1 =
      .ok ({ outH0 with bytes_written := 0 + 1 }, (hwrite osTen [9] 1).2) ∧
    OutputFile.rewrite false outH0 osTen (some [9]) 1 =
      .ok (outH0, (hwrite osTen [9] 1).2) :=
  ⟨rfl, C5_rewrite_preserves_count.1 outH0 osTen (some [9]) 1 _ _ rfl⟩

theorem outfile_seek_ok_state {toS : Bool} {h : OutputFileState} {f : OsFile}
    {off w r : Int} {h' : OutputFileState} {f' : OsFile}
    (hs : OutputFile.seek toS h f off w = .ok (r, h', f')) :
    h' = OutputFile.seekBookkeeping h off w := by
  simp only [OutputFile.seek] at hs
  split at hs
  · simp at hs
  · split at hs
    · simp at hs
    · split at hs
      · simp at hs
      · simp only [Except.ok.injEq, Prod.mk.injEq] at hs
        exact hs.2.1.symm

theorem ostream_seek_ok_state {h : OutputStreamState} {s : OStream}
    {off w r : Int} {h' : OutputStreamState} {s' : OStream}
    (hs : OutputStream.seek h s off w = .ok (r, h', s')) :
    h' = OutputStream.seekBookkeeping h off w := by
  simp only [OutputStream.seek] at hs
  split at hs
  · simp at hs
  · split at hs
    · simp at hs
    · split at hs
      · simp at hs
      · split at hs
        · simp at hs
        · simp only [Except.ok.injEq, Prod.mk.injEq] at hs
          exact hs.2.1.symm

theorem outfile_bookkeeping_set (h : OutputFileState) (off : Int) :
    (OutputFile.seekBookkeeping h off SEEK_SET).bytes_written =
      (if h.bytes_written < off then off else h.bytes_written) ∧
    (OutputFile.seekBookkeeping h off SEEK_SET).base.length =
      (OutputFile.seekBookkeeping h off SEEK_SET).bytes_written := by
  simp [OutputFile.seekBookkeeping]

theorem outfile_bookkeeping_end (h : OutputFileState) (off : Int) :
    (OutputFile.seekBookkeeping h off SEEK_END).base.length = h.bytes_written ∧
    (OutputFile.seekBookkeeping h off SEEK_END).bytes_written = h.bytes_written := by
  simp [OutputFile.seekBookkeeping, SEEK_SET, SEEK_END]

theorem ostream_bookkeeping_set (h : OutputStreamState) (off : Int) :
    (OutputStream.seekBookkeeping h off SEEK_SET).bytes_written =
      (if h.bytes_written < off then off else h.bytes_written) ∧
    (OutputStream.seekBookkeeping h off SEEK_SET).base.length =
      (OutputStream.seekBookkeeping h off SEEK_SET).bytes_written := by
  simp [OutputStream.seekBookkeeping]

theorem ostream_bookkeeping_end (h : OutputStreamState) (off : Int) :
    (OutputStream.seekBookkeeping h off SEEK_END).base.length = h.bytes_written ∧
    (OutputStream.seekBookkeeping h off SEEK_END).bytes_written = h.bytes_written := by
  simp [OutputStream.seekBookkeeping, SEEK_SET, SEEK_END]

/-- C6 (confirmed): on both write backends, a successful FROM_START seek
to an offset beyond the current `bytes_written` sets `bytes_written` to
that offset, with `length` lazily updated to track `bytes_written`, and
a successful FROM_END seek sets `length` to the current `bytes_written`
(leaving the counter itself unchanged). -/
theorem C6_seek_bookkeeping :
    (∀ toS h f off r h' f', OutputFile.seek toS h f off SEEK_SET = .ok (r, h', f') →
      (h.bytes_written < off → h'.bytes_written = off) ∧
      h'.base.length = h'.bytes_written) ∧
    (∀ toS h f off r h' f', OutputFile.seek toS h f off SEEK_END = .ok (r, h', f') →
      h'.base.length = h.bytes_written ∧ h'.bytes_written = h.bytes_written) ∧
    (∀ h s off r h' s', OutputStream.seek h s off SEEK_SET = .ok (r, h', s') →
      (h.bytes_written < off → h'.bytes_written = off) ∧
      h'.base.length = h'.bytes_written) ∧
    (∀ h s off r h' s', OutputStream.seek h s off SEEK_END = .ok (r, h', s') →
      h'.base.length = h.bytes_written ∧ h'.bytes_written = h.bytes_written) := by
  refine ⟨?_, ?_, ?_, ?_⟩
  · intro toS h f off r h' f' hs
    rw [outfile_seek_ok_state hs]
    obtain ⟨hb, hl⟩ := outfile_bookkeeping_set h off
    refine ⟨?_, hl⟩
    intro hlt
    rw [hb, if_pos hlt]
  · intro toS h f off r h' f' hs
    rw [outfile_seek_ok_state hs]
    exact outfile_bookkeeping_end h off
  · intro h s off r h' s' hs
    rw [ostream_seek_ok_state hs]
    obtain ⟨hb, hl⟩ := ostream_bookkeeping_set h off
    refine ⟨?_, hl⟩
    intro hlt
    rw [hb, if_pos hlt]
  · intro h s off r h' s' hs
    rw [ostream_seek_ok_state hs]
    exact ostream_bookkeeping_end h off

/-- C6 witness: a concrete FROM_START seek to 7 on a handle that has
written 0 bytes extends `bytes_written` to 7 and sets `length` to 7. -/
theorem C6_witness :
    OutputFile.seek false outH0 osTen 7 SEEK_SET =
      .ok (7, OutputFile.seekBookkeeping outH0 7 SEEK_SET, { osTen with pos := 7 }) ∧
    (outH0.bytes_written < 7 →
      (OutputFile.seekBookkeeping outH0 7 SEEK_SET).bytes_written = 7) ∧
    (OutputFile.seekBookkeeping outH0 7 SEEK_SET).base.length =
      (OutputFile.seekBookkeeping outH0 7 SEEK_SET).bytes_written := by
  have h := C6_seek_bookkeeping.1 false outH0 osTen 7 7
    (OutputFile.seekBookkeeping outH0 7 SEEK_SET) { osTen with pos := 7 } rfl
  exact ⟨rfl, h.1, h.2⟩

/-- A one-entry file system holding an accessible file "a.bin". -/
def fsOne : List FsEntry := [{ name := "a.bin", data := [1, 2], accessible := true }]

/-- A file system whose single entry "locked.bin" is not accessible
(opening it yields EACCES). -/
def fsLocked : List FsEntry := [{ name := "locked.bin", data := [3], accessible := false }]

/-- Read-only open flags (no create, no exclusive, no truncate). -/
def flRd : OpenFlags := { acc := .rdonly, creat := false, excl := false, trunc := false }

/-- Exclusive-create write flags. -/
def flCreatExcl : OpenFlags := { acc := .wronly, creat := true, excl := true, trunc := false }

/-- C7 (confirmed): opening a non-existent target with a read-only
(non-creating) open raises NotFoundError through the read handle;
opening with exclusive-create against an existing target raises
AlreadyExistsError on both handles; any other open failure (here:
EACCES on an inaccessible target) raises a generic IOError carrying the
OS error code on both handles. -/
theorem C7_open_errors :
    (∀ fs name fl, lookupFs fs name = none → fl.acc = AccMode.rdonly →
      fl.creat = false → InputFile.sopen fs name fl = .error .notFound) ∧
    (∀ fs name fl e, lookupFs fs name = some e → fl.creat = true → fl.excl = true →
      InputFile.sopen fs name fl = .error .alreadyExists ∧
      OutputFile.sopen fs name fl = .error .alreadyExists) ∧
    (∀ fs name fl e, lookupFs fs name = some e →
      (fl.creat = true ∧ fl.excl = true → False) → e.accessible = false →
      InputFile.sopen fs name fl = .error (.ioError name (some EACCES)) ∧
      OutputFile.sopen fs name fl = .error (.ioError name (some EACCES))) := by
  refine ⟨?_, ?_, ?_⟩
  · intro fs name fl hlk hacc hcreat
    simp [InputFile.sopen, do_sopen, osOpen, hlk, hcreat]
  · intro fs name fl e hlk hcreat hexcl
    constructor
    · simp [InputFile.sopen, do_sopen, osOpen, hlk, hcreat, hexcl, ENOENT, EEXIST]
    · simp [OutputFile.sopen, do_sopen, osOpen, hlk, hcreat, hexcl, EEXIST]
  · intro fs name fl e hlk hnce hacc
    constructor
    · simp only [InputFile.sopen, do_sopen, osOpen, hlk]
      rw [if_neg hnce, if_pos (by simp [hacc])]
      simp [ENOENT, EEXIST, EACCES]
    · simp only [OutputFile.sopen, do_sopen, osOpen, hlk]
      rw [if_neg hnce, if_pos (by simp [hacc])]
      simp [EEXIST, EACCES]

/-- C7 witness: the three error paths exercised concretely — a missing
file opened read-only, an exclusive-create collision, and an
inaccessible file. -/
theorem C7_witness :
    (lookupFs fsOne "missing.bin" = none ∧ flRd.acc = AccMode.rdonly ∧
      flRd.creat = false ∧
      InputFile.sopen fsOne "missing.bin" flRd = .error .notFound) ∧
    (InputFile.sopen fsOne "a.bin" flCreatExcl = .error .alreadyExists ∧
      OutputFile.sopen fsOne "a.bin" flCreatExcl = .error .alreadyExists) ∧
    (InputFile.sopen fsLocked "locked.bin" flRd =
        .error (.ioError "locked.bin" (some EACCES)) ∧
      OutputFile.sopen fsLocked "locked.bin" flRd =
        .error (.ioError "locked.bin" (some EACCES))) :=
  ⟨⟨rfl, rfl, rfl, C7_open_errors.1 fsOne "missing.bin" flRd rfl rfl rfl⟩,
   C7_open_errors.2.1 fsOne "a.bin" flCreatExcl
     { name := "a.bin", data := [1, 2], accessible := true } rfl rfl rfl,
   C7_open_errors.2.2 fsLocked "locked.bin" flRd
     { name := "locked.bin", data := [3], accessible := false } rfl
     (by intro hc; exact absurd hc.1 (by decide)) rfl⟩

/-- C8 (confirmed): both read handles bounds-check seek results against
the window length and raise IOError on violation: `InputFile::seek`
rejects exactly the base-seek results with `_length < pos` ("bad seek
4"), and `InputStream::seek` never returns a position whose
window-relative value exceeds `length` (any rejected seek on the stream
backend fails with an IOError, never another error kind). -/
theorem C8_seek_window_check :
    (∀ h f off w pos f', FileBase.seek h f off w = .ok (pos, f') → h.length < pos →
      InputFile.seek h f off w = .error (.ioError "bad seek 4" none)) ∧
    (∀ h f off w pos f', FileBase.seek h f off w = .ok (pos, f') → pos ≤ h.length →
      InputFile.seek h f off w = .ok (pos, f')) ∧
    (∀ h s off w r s', InputStream.seek h s off w = .ok (r, s') →
      0 ≤ h.offset → 0 ≤ h.length → r - h.offset ≤ h.length) ∧
    (∀ h s off w e, InputStream.seek h s off w = .error e →
      ∃ msg n, e = .ioError msg n) := by
  refine ⟨?_, ?_, ?_, ?_⟩
  · intro h f off w pos f' hb hlt
    simp only [InputFile.seek, hb]
    rw [if_pos hlt]
  · intro h f off w pos f' hb hle
    simp only [InputFile.seek, hb]
    rw [if_neg (by omega)]
  · intro h s off w r s' hs hoff hlen
    simp only [InputStream.seek] at hs
    split at hs
    · simp at hs
    · split at hs
      · simp at hs
      · split at hs
        · simp at hs
        · split at hs
          · simp at hs
          · rename_i hno
            simp only [Except.ok.injEq, Prod.mk.injEq] at hs
            obtain ⟨h1, h2⟩ := hs
            push_neg at hno
            omega
  · intro h s off w e hs
    simp only [InputStream.seek] at hs
    split at hs
    · simp only [Except.error.injEq] at hs
      exact ⟨_, _, hs.symm⟩
    · split at hs
      · simp only [Except.error.injEq] at hs
        exact ⟨_, _, hs.symm⟩
      · split at hs
        · simp only [Except.error.injEq] at hs
          exact ⟨_, _, hs.symm⟩
        · split at hs
          · simp only [Except.error.injEq] at hs
            exact ⟨_, _, hs.symm⟩
          · simp at hs

/-- C8 witness: a base seek to window-relative 5 succeeds at the base
level but exceeds the window length 3, so the read handle's seek raises
IOError "bad seek 4"; hypotheses discharged concretely. -/
theorem C8_witness :
    FileBase.seek hWin3 osTen 5 SEEK_SET = .ok (5, { osTen with pos := 5 }) ∧
    hWin3.length < 5 ∧
    InputFile.seek hWin3 osTen 5 SEEK_SET = .error (.ioError "bad seek 4" none) :=
  ⟨rfl, by decide,
    C8_seek_window_check.1 hWin3 osTen 5 SEEK_SET 5 { osTen with pos := 5 }
      rfl (by decide)⟩

/-- An open handle over a stream larger than the sanity-check limit. -/
def hBig : FileBaseState :=
  { isOpen := true, offset := 0, length := 0x30000000 + 10 }

/-- An input stream larger than the sanity-check limit. -/
def sBig : IStream :=
  { size := 0x30000000 + 10, pos := 0,
    eofbit := false, failbit := false, badbit := false }

/-- C9 (counterexample): `InputStream::seek` has no
`mem_size_valid_bytes` sanity check: an offset one past the limit, which
the claim says every seek must reject with IOError before translation,
is passed straight to the stream and the seek succeeds. -/
theorem C9_counterexample :
    mem_size_valid_bytes (seekMag (0x30000000 + 1)) = false ∧
    InputStream.seek hBig sBig (0x30000000 + 1) SEEK_SET =
      .ok (0x30000000 + 1, { sBig with pos := 0x30000000 + 1 }) :=
  ⟨by decide, rfl⟩

/-- C9 (amended): the descriptor-backed base seek (hence `InputFile` and
`OutputFile` seeks) and the stream-backed write seek apply the
`mem_size_valid_bytes` sanity check on the offset magnitude and raise
IOError ("bad seek") before any translation; the stream-backed read seek
(`InputStream::seek`) performs no such check and passes oversized
offsets directly to the stream. -/
theorem C9_seek_sanity_check :
    (∀ h f off w, h.isOpen = true → mem_size_valid_bytes (seekMag off) = false →
      FileBase.seek h f off w = .error (.ioError "bad seek" none)) ∧
    (∀ toS h f off w, mem_size_valid_bytes (seekMag off) = false →
      OutputFile.seek toS h f off w = .error (.ioError "bad seek" none)) ∧
    (∀ h s off w, mem_size_valid_bytes (seekMag off) = false →
      OutputStream.seek h s off w = .error (.ioError "bad seek" none)) := by
  refine ⟨?_, ?_, ?_⟩
  · intro h f off w hopen hval
    simp [FileBase.seek, hopen, hval]
  · intro toS h f off w hval
    simp [OutputFile.seek, hval]
  · intro h s off w hval
    simp [OutputStream.seek, hval]

/-- C9 witness: the same oversized offset rejected concretely by the
descriptor-backed base seek. -/
theorem C9_witness :
    hOpen0.isOpen = true ∧
    mem_size_valid_bytes (seekMag (0x30000000 + 1)) = false ∧
    FileBase.seek hOpen0 osTen (0x30000000 + 1) SEEK_SET =
      .error (.ioError "bad seek" none) :=
  ⟨rfl, by decide,
    C9_seek_sanity_check.1 hOpen0 osTen (0x30000000 + 1) SEEK_SET rfl (by decide)⟩

/-- C10 (confirmed): on the descriptor-backed write handle, `rewrite`
and `seek` assert that the tool is not in write-to-stdout mode — with
`opt->to_stdout` set they fail the assertion instead of operating — and
`st_size` in write-to-stdout mode returns the tracked `bytes_written`
without querying the descriptor. -/
theorem C10_stdout_preconditions :
    (∀ h f buf len, OutputFile.rewrite true h f buf len = .error .assertFail) ∧
    (∀ h f off w, mem_size_valid_bytes (seekMag off) = true →
      OutputFile.seek true h f off w = .error .assertFail) ∧
    (∀ h f, OutputFile.st_size true h f = h.bytes_written) := by
  refine ⟨?_, ?_, ?_⟩
  · intro h f buf len
    simp [OutputFile.rewrite]
  · intro h f off w hval
    simp [OutputFile.seek, hval]
  · intro h f
    simp [OutputFile.st_size]

/-- C10 witness: the stdout-mode seek assertion failure exercised
concretely. -/
theorem C10_witness :
    mem_size_valid_bytes (seekMag 4) = true ∧
    OutputFile.seek true outH0 osTen 4 SEEK_SET = .error .assertFail :=
  ⟨by decide, C10_stdout_preconditions.2.1 outH0 osTen 4 SEEK_SET (by decide)⟩
